import Mathlib

/-!
Shallow embedding of the gem5 remote-GDB stub (`src/base/remote_gdb.hh`) and
of `cpu/exec_context.cc`, with theorems checking the natural-language
specification against it.

Bytes on the wire are modelled as natural numbers (the value of the octet);
byte strings as `List Nat`.  The repository ships only the header of the
remote-GDB stub, so the bodies of its member functions are modelled from the
spec where noted; `exec_context.cc` and the inline `build` factory are
embedded from the source directly.
-/

/-- Modelled from the spec (the body of `BaseRemoteGDB::encodeBinaryData` is
not in the repository): the bytes that must be escaped inside a payload are
`#` (0x23), `$` (0x24), `}` (0x7d) and `*` (0x2a). -/
def isEscapedByte (b : Nat) : Bool :=
  b = 0x23 || b = 0x24 || b = 0x7d || b = 0x2a

/-- Modelled from the spec: an escaped byte is written as `}` followed by the
byte XOR 0x20; every other byte is transmitted as itself. -/
def escapeByte (b : Nat) : List Nat :=
  if isEscapedByte b then [0x7d, b ^^^ 0x20] else [b]

/-- Modelled from the spec: RSP escaping of a whole payload
(`BaseRemoteGDB::encodeBinaryData`, body missing from the repository). -/
def escapeAll (P : List Nat) : List Nat :=
  P.flatMap escapeByte

/-- Sum of a list of bytes, used by the RSP checksum. -/
def sumBytes (l : List Nat) : Nat :=
  l.foldl (· + ·) 0

/-- Lower-case hex digit (as a byte) for a value below 16. -/
def hexDigit (x : Nat) : Nat :=
  if x < 10 then 48 + x else 87 + x

/-- Value of a hex-digit byte, inverse of `hexDigit`. -/
def hexVal (c : Nat) : Nat :=
  if c ≤ 57 then c - 48 else c - 87

/-- Modelled from the spec (the body of `BaseRemoteGDB::send` is not in the
repository): the checksum field of a packet with payload `P` is the two
hex-digit bytes of the modulo-256 sum of the transmitted (escaped) payload. -/
def csum (P : List Nat) : List Nat :=
  let s := sumBytes (escapeAll P) % 256
  [hexDigit (s / 16), hexDigit (s % 16)]

/-- Modelled from the spec: `BaseRemoteGDB::send` frames a payload `P` as
`$<escaped payload>#<checksum>` (body missing from the repository). -/
def encode (P : List Nat) : List Nat :=
  0x24 :: (escapeAll P ++ 0x23 :: csum P)

/-- Modelled from the spec: undo the `}`-escaping in a received payload
(part of `BaseRemoteGDB::recv`, body missing from the repository). -/
def unescape : List Nat → List Nat
  | [] => []
  | [b] => [b]
  | b :: c :: rest =>
      if b = 0x7d then (c ^^^ 0x20) :: unescape rest
      else b :: unescape (c :: rest)

/-- Modelled from the spec: `BaseRemoteGDB::recv` (body missing from the
repository) reads bytes until `$`, accumulates the payload until `#`, reads
the two checksum hex digits, compares them against the modulo-256 sum of the
accumulated payload, and on a match delivers the unescaped payload. -/
def decode (wire : List Nat) : Option (List Nat) :=
  match wire.dropWhile (fun b => decide (b ≠ 0x24)) with
  | [] => none
  | _ :: rest =>
      let payload := rest.takeWhile (fun b => decide (b ≠ 0x23))
      match rest.dropWhile (fun b => decide (b ≠ 0x23)) with
      | [_, h1, h2] =>
          if hexVal h1 * 16 + hexVal h2 = sumBytes payload % 256 then
            some (unescape payload)
          else none
      | _ => none

theorem escapeAll_nil : escapeAll [] = [] := rfl

theorem escapeAll_cons (b : Nat) (t : List Nat) :
    escapeAll (b :: t) = escapeByte b ++ escapeAll t := rfl

theorem escapeAll_ne_nil_of_cons (b : Nat) (t : List Nat) :
    escapeAll (b :: t) ≠ [] := by
  rw [escapeAll_cons, escapeByte]
  split <;> simp

/-- No byte produced by the escaper is `#` or `$`. -/
theorem escapeAll_no_frame_bytes (P : List Nat) :
    ∀ b ∈ escapeAll P, b ≠ 0x23 ∧ b ≠ 0x24 := by
  induction P with
  | nil => intro b hb; simp [escapeAll] at hb
  | cons a t ih =>
      intro b hb
      rw [escapeAll_cons] at hb
      rcases List.mem_append.mp hb with h | h
      · by_cases ha : isEscapedByte a = true
        · rw [escapeByte, if_pos ha] at h
          simp only [List.mem_cons, List.not_mem_nil, or_false] at h
          rcases h with h | h
          · subst h; exact ⟨by decide, by decide⟩
          · subst h
            simp only [isEscapedByte, Bool.or_eq_true, decide_eq_true_eq] at ha
            rcases ha with ((h' | h') | h') | h' <;> subst h' <;> exact ⟨by decide, by decide⟩
        · rw [escapeByte, if_neg ha] at h
          simp only [List.mem_cons, List.not_mem_nil, or_false] at h
          subst h
          simp only [isEscapedByte, Bool.or_eq_true, decide_eq_true_eq] at ha
          push_neg at ha
          exact ⟨ha.1.1.1, ha.1.1.2⟩
      · exact ih b h

theorem takeWhile_append_of_all {p : Nat → Bool} (l t : List Nat)
    (h : ∀ b ∈ l, p b = true) :
    (l ++ t).takeWhile p = l ++ t.takeWhile p := by
  induction l with
  | nil => simp
  | cons a l ih =>
      have ha : p a = true := h a (by simp)
      rw [List.cons_append, List.takeWhile_cons_of_pos ha,
        ih (fun b hb => h b (by simp [hb])), List.cons_append]

theorem dropWhile_append_of_all {p : Nat → Bool} (l t : List Nat)
    (h : ∀ b ∈ l, p b = true) :
    (l ++ t).dropWhile p = t.dropWhile p := by
  induction l with
  | nil => simp
  | cons a l ih =>
      have ha : p a = true := h a (by simp)
      rw [List.cons_append, List.dropWhile_cons_of_pos ha]
      exact ih (fun b hb => h b (by simp [hb]))

theorem unescape_escapeAll (P : List Nat) : unescape (escapeAll P) = P := by
  induction P with
  | nil => rfl
  | cons a t ih =>
      rw [escapeAll_cons, escapeByte]
      by_cases ha : isEscapedByte a = true
      · rw [if_pos ha]
        show unescape (0x7d :: (a ^^^ 0x20) :: escapeAll t) = a :: t
        rw [unescape, if_pos rfl, Nat.xor_assoc, Nat.xor_self, Nat.xor_zero, ih]
      · rw [if_neg ha]
        have hane : a ≠ 0x7d := by
          intro h
          subst h
          simp [isEscapedByte] at ha
        cases ht : escapeAll t with
        | nil =>
            cases t with
            | nil => simp [unescape]
            | cons x y => exact absurd ht (escapeAll_ne_nil_of_cons x y)
        | cons c rest =>
            show unescape (a :: c :: rest) = a :: t
            rw [unescape, if_neg hane, ← ht, ih]

theorem hexVal_hexDigit (x : Nat) (hx : x < 16) : hexVal (hexDigit x) = x := by
  interval_cases x <;> rfl

theorem csum_checks (P : Nat) :
    hexVal (hexDigit (P % 256 / 16)) * 16 + hexVal (hexDigit (P % 256 % 16)) = P % 256 := by
  have h1 : P % 256 / 16 < 16 := by omega
  have h2 : P % 256 % 16 < 16 := Nat.mod_lt _ (by decide)
  rw [hexVal_hexDigit _ h1, hexVal_hexDigit _ h2]
  omega

theorem decode_frame (payload : List Nat) (d1 d2 : Nat)
    (hp : ∀ b ∈ payload, b ≠ 0x23 ∧ b ≠ 0x24)
    (hcs : hexVal d1 * 16 + hexVal d2 = sumBytes payload % 256) :
    decode (0x24 :: (payload ++ [0x23, d1, d2])) = some (unescape payload) := by
  have hall : ∀ b ∈ payload, (fun b => decide (b ≠ 0x23)) b = true := by
    intro b hb
    simpa using (hp b hb).1
  have h1 : (0x24 :: (payload ++ [0x23, d1, d2])).dropWhile
      (fun b => decide (b ≠ 0x24)) = 0x24 :: (payload ++ [0x23, d1, d2]) := by
    rw [List.dropWhile_cons_of_neg]
    simp
  have h2 : (payload ++ [0x23, d1, d2]).takeWhile
      (fun b => decide (b ≠ 0x23)) = payload := by
    rw [takeWhile_append_of_all _ _ hall, List.takeWhile_cons_of_neg]
    · simp
    · simp
  have h3 : (payload ++ [0x23, d1, d2]).dropWhile
      (fun b => decide (b ≠ 0x23)) = [0x23, d1, d2] := by
    rw [dropWhile_append_of_all _ _ hall, List.dropWhile_cons_of_neg]
    simp
  simp only [decode, h1, h2, h3]
  rw [if_pos hcs]

theorem encode_shape (P : List Nat) :
    encode P = 0x24 :: (escapeAll P ++
      [0x23, hexDigit (sumBytes (escapeAll P) % 256 / 16),
       hexDigit (sumBytes (escapeAll P) % 256 % 16)]) := rfl

/-- C1: the wire codec frames every payload `P` as
`$ ++ escape(P) ++ # ++ csum(P)`, and decoding an encoded packet recovers the
original payload — for every byte string, including ones containing the bytes
`#`, `$`, `}`, `*` and 0x03. -/
theorem framing_round_trip (P : List Nat) :
    encode P = [0x24] ++ escapeAll P ++ [0x23] ++ csum P ∧
    decode (encode P) = some P := by
  constructor
  · simp [encode]
  · rw [encode_shape, decode_frame (escapeAll P) _ _ (escapeAll_no_frame_bytes P)
      (csum_checks (sumBytes (escapeAll P))), unescape_escapeAll]

/-- Reply conventions of the stub: success `OK`, generic error `E01`, the
empty packet for unsupported commands, or a payload. -/
inductive RSPReply : Type where
  | ok : RSPReply
  | err01 : RSPReply
  | payload (bytes : List Nat) : RSPReply
deriving DecidableEq, Repr

/-- Simulated memory, one byte per address. -/
structure SimMemory : Type where
  byteAt : Nat → Nat

/-- Modelled from the spec: the range `[addr, addr + n)` passes the
subclass-supplied access-validity predicate `acc` when every byte of the
range does. -/
def rangeAcc (accB : Nat → Bool) (addr n : Nat) : Bool :=
  (List.range n).all fun i => accB (addr + i)

/-- Modelled from the spec (the body of `BaseRemoteGDB::write` and of the
`M` handler `cmdMemW` is not in the repository): a memory-gateway write is
all-or-nothing — if any byte of the range fails `acc` the reply is `E01` and
memory is untouched, otherwise the whole block is stored and the reply is
`OK`. -/
def gdbWriteMem (accB : Nat → Bool) (m : SimMemory) (addr : Nat)
    (bytes : List Nat) : SimMemory × RSPReply :=
  if rangeAcc accB addr bytes.length then
    (⟨fun a => if addr ≤ a ∧ a < addr + bytes.length
               then bytes.getD (a - addr) 0 else m.byteAt a⟩, RSPReply.ok)
  else (m, RSPReply.err01)

/-- Modelled from the spec (the body of `BaseRemoteGDB::read` and of the
`m` handler `cmdMemR` is not in the repository): a memory-gateway read
returns the `n` bytes at `addr` when the whole range passes `acc`, and
fails otherwise. -/
def gdbReadMem (accB : Nat → Bool) (m : SimMemory) (addr n : Nat) :
    Option (List Nat) :=
  if rangeAcc accB addr n then
    some ((List.range n).map fun i => m.byteAt (addr + i))
  else none

theorem getD_range_map (l : List Nat) :
    (List.range l.length).map (fun i => l.getD i 0) = l := by
  apply List.ext_getElem
  · simp
  · intro i h1 h2
    simp [List.getD_eq_getElem?_getD, List.getElem?_eq_getElem h2]

/-- C2: an `M`-packet write is all-or-nothing — if the range fails the `acc`
check the reply is `E01` and memory is unchanged; otherwise the whole block
is written and a subsequent read of the same range returns exactly the
written bytes. -/
theorem memWrite_all_or_nothing (accB : Nat → Bool) (m : SimMemory)
    (addr : Nat) (bytes : List Nat) :
    (rangeAcc accB addr bytes.length = false →
      gdbWriteMem accB m addr bytes = (m, RSPReply.err01)) ∧
    (rangeAcc accB addr bytes.length = true →
      gdbReadMem accB (gdbWriteMem accB m addr bytes).1 addr bytes.length
        = some bytes) := by
  constructor
  · intro hf
    rw [gdbWriteMem, if_neg (by simp [hf])]
  · intro ht
    rw [gdbWriteMem, if_pos ht, gdbReadMem, if_pos ht]
    congr 1
    have heq : ∀ i ∈ List.range bytes.length,
        (if addr ≤ addr + i ∧ addr + i < addr + bytes.length
         then bytes.getD (addr + i - addr) 0 else m.byteAt (addr + i))
          = bytes.getD i 0 := by
      intro i hi
      rw [List.mem_range] at hi
      rw [if_pos ⟨Nat.le_add_right _ _, by omega⟩]
      congr 1
      omega
    rw [List.map_congr_left heq, getD_range_map]

/-- Witness for C2 at concrete inputs: a denied one-byte write leaves the
all-zero memory unchanged with reply `E01`, and a permitted write of
`[0xde, 0xad]` at 0x1000 reads back as `[0xde, 0xad]`. -/
theorem memWrite_all_or_nothing_witness :
    gdbWriteMem (fun _ => false) ⟨fun _ => 0⟩ 0x1000 [0xde, 0xad]
      = (⟨fun _ => 0⟩, RSPReply.err01) ∧
    gdbReadMem (fun _ => true)
      (gdbWriteMem (fun _ => true) ⟨fun _ => 0⟩ 0x1000 [0xde, 0xad]).1 0x1000 2
      = some [0xde, 0xad] :=
  ⟨(memWrite_all_or_nothing (fun _ => false) ⟨fun _ => 0⟩ 0x1000 [0xde, 0xad]).1 rfl,
   (memWrite_all_or_nothing (fun _ => true) ⟨fun _ => 0⟩ 0x1000 [0xde, 0xad]).2 rfl⟩

/-- The software-breakpoint table: a set of `(addr, len)` pairs. -/
abbrev BpTable := List (Nat × Nat)

/-- Modelled from the spec (the body of `BaseRemoteGDB::insertSoftBreak`
and of the `Z0` handler is not in the repository): a length rejected by
`checkBpLen` replies `E01`; installing a breakpoint that is already present
is a silent no-op; otherwise the `(addr, len)` pair is added. -/
def insertSoftBreak (check : Nat → Bool) (t : BpTable) (addr len : Nat) :
    BpTable × RSPReply :=
  if check len then
    if (addr, len) ∈ t then (t, RSPReply.ok)
    else ((addr, len) :: t, RSPReply.ok)
  else (t, RSPReply.err01)

/-- Modelled from the spec (the body of `BaseRemoteGDB::removeSoftBreak`
and of the `z0` handler is not in the repository): a length rejected by
`checkBpLen` replies `E01`; removing a present breakpoint erases it;
removing an absent one replies `E01`. -/
def removeSoftBreak (check : Nat → Bool) (t : BpTable) (addr len : Nat) :
    BpTable × RSPReply :=
  if check len then
    if (addr, len) ∈ t then (t.erase (addr, len), RSPReply.ok)
    else (t, RSPReply.err01)
  else (t, RSPReply.err01)

/-- C3: with a valid length and no breakpoint yet at `a`, inserting `(a, l)`
twice is a silent no-op the second time, removing it once then leaves no
breakpoint at `a` (the table returns to its original state), and removing a
breakpoint that is not present replies `E01`. -/
theorem softBreak_idempotent (check : Nat → Bool) (t : BpTable) (a l : Nat)
    (hlen : check l = true) (hnone : ∀ l2, (a, l2) ∉ t) :
    insertSoftBreak check (insertSoftBreak check t a l).1 a l
      = ((insertSoftBreak check t a l).1, RSPReply.ok) ∧
    removeSoftBreak check
        (insertSoftBreak check (insertSoftBreak check t a l).1 a l).1 a l
      = (t, RSPReply.ok) ∧
    (∀ l2, (a, l2) ∉
      (removeSoftBreak check
        (insertSoftBreak check (insertSoftBreak check t a l).1 a l).1 a l).1) ∧
    removeSoftBreak check t a l = (t, RSPReply.err01) := by
  have hmem : (a, l) ∉ t := hnone l
  have h1 : insertSoftBreak check t a l = ((a, l) :: t, RSPReply.ok) := by
    rw [insertSoftBreak, if_pos hlen, if_neg hmem]
  have h2 : insertSoftBreak check ((a, l) :: t) a l
      = ((a, l) :: t, RSPReply.ok) := by
    rw [insertSoftBreak, if_pos hlen, if_pos (List.mem_cons_self _ _)]
  have h3 : removeSoftBreak check ((a, l) :: t) a l = (t, RSPReply.ok) := by
    rw [removeSoftBreak, if_pos hlen, if_pos (List.mem_cons_self _ _),
      List.erase_cons_head]
  refine ⟨?_, ?_, ?_, ?_⟩
  · rw [h1, h2]
  · rw [h1, h2, h3]
  · rw [h1, h2, h3]
    exact hnone
  · rw [removeSoftBreak, if_pos hlen, if_neg hmem]

/-- Witness for C3 at concrete inputs: with length check `l = 4`, an empty
table, address 0x4000 and length 4. -/
theorem softBreak_idempotent_witness :
    insertSoftBreak (fun n => n == 4)
        (insertSoftBreak (fun n => n == 4) [] 0x4000 4).1 0x4000 4
      = ((insertSoftBreak (fun n => n == 4) [] 0x4000 4).1, RSPReply.ok) ∧
    removeSoftBreak (fun n => n == 4)
        (insertSoftBreak (fun n => n == 4)
          (insertSoftBreak (fun n => n == 4) [] 0x4000 4).1 0x4000 4).1 0x4000 4
      = ([], RSPReply.ok) ∧
    (∀ l2, (0x4000, l2) ∉
      (removeSoftBreak (fun n => n == 4)
        (insertSoftBreak (fun n => n == 4)
          (insertSoftBreak (fun n => n == 4) [] 0x4000 4).1 0x4000 4).1
        0x4000 4).1) ∧
    removeSoftBreak (fun n => n == 4) [] 0x4000 4 = ([], RSPReply.err01) :=
  softBreak_idempotent (fun n => n == 4) [] 0x4000 4 rfl
    (fun l2 => List.not_mem_nil (0x4000, l2))

/-- `BaseRemoteGDB::checkBpLen` (declared virtual in the header; the spec
records the default body): a breakpoint length is accepted exactly when it
equals `sizeof(MachInst)`, here a parameter `machInstSize`. Modelled from
the spec: the default body is not in the repository. -/
def checkBpLen (machInstSize len : Nat) : Bool :=
  len == machInstSize

/-- C7: the default `checkBpLen` accepts `len` iff `len = sizeof(MachInst)`,
and with any other length the breakpoint commands fail with `E01`, leaving
the table unchanged. -/
theorem checkBpLen_default (machInstSize len : Nat) :
    (checkBpLen machInstSize len = true ↔ len = machInstSize) ∧
    (len ≠ machInstSize → ∀ t a,
      insertSoftBreak (checkBpLen machInstSize) t a len = (t, RSPReply.err01) ∧
      removeSoftBreak (checkBpLen machInstSize) t a len = (t, RSPReply.err01)) := by
  constructor
  · simp [checkBpLen]
  · intro hne t a
    have hc : checkBpLen machInstSize len = false := by
      simp [checkBpLen, hne]
    constructor
    · rw [insertSoftBreak, if_neg (by simp [hc])]
    · rw [removeSoftBreak, if_neg (by simp [hc])]

/-- Witness for C7 at concrete inputs: with `sizeof(MachInst) = 4`, a
length-2 breakpoint command fails with `E01` on the empty table. -/
theorem checkBpLen_default_witness :
    insertSoftBreak (checkBpLen 4) [] 0x4000 2 = ([], RSPReply.err01) ∧
    removeSoftBreak (checkBpLen 4) [] 0x4000 2 = ([], RSPReply.err01) :=
  (checkBpLen_default 4 2).2 (by decide) [] 0x4000

/-- Modelled from the spec (the definition of the static
`BaseRemoteGDB::commandMap` is not in the repository): the single-byte
commands present in the table. -/
def commandBytes : List Char :=
  ['c', 's', 'g', 'G', 'm', 'M', 'q', 'Q', 'H', 'v', '?', 'D', 'k',
   'z', 'Z', 'X', 'C', 'S', 'i']

/-- Modelled from the spec (the definition of the static
`BaseRemoteGDB::queryMap` is not in the repository): the sub-tokens after
`q`/`Q` present in the table. -/
def knownQueries : List String :=
  ["C", "Supported", "Xfer", "fThreadInfo", "sThreadInfo", "Attached"]

/-- Modelled from the spec (the body of `BaseRemoteGDB::cmdUnsupported` is
not in the repository): the unsupported-command handler sends the empty
packet and keeps reading packets (returns `true`). -/
def cmdUnsupported : List Nat × Bool :=
  (encode [], true)

/-- Modelled from the spec: the dispatcher routes a first command byte found
in `commandMap` to its handler and anything else to `cmdUnsupported`.
`handlerResult` stands for whatever the looked-up handler would produce. -/
def dispatchCommand (b : Char) (handlerResult : List Nat × Bool) :
    List Nat × Bool :=
  if b ∈ commandBytes then handlerResult else cmdUnsupported

/-- Modelled from the spec: the `q`/`Q` sub-dispatcher routes a sub-token
found in `queryMap` to its handler and anything else to `cmdUnsupported`. -/
def dispatchQuery (name : String) (handlerResult : List Nat × Bool) :
    List Nat × Bool :=
  if name ∈ knownQueries then handlerResult else cmdUnsupported

/-- C4: every packet whose first command byte, or whose `q`/`Q` sub-token,
is not in the command tables gets the deterministic reply `$#00` (the
encoding of the empty payload) and the dispatcher keeps reading packets. -/
theorem unknown_command_empty_reply (b : Char) (name : String)
    (handlerResult : List Nat × Bool)
    (hb : b ∉ commandBytes) (hn : name ∉ knownQueries) :
    dispatchCommand b handlerResult = ([0x24, 0x23, 0x30, 0x30], true) ∧
    dispatchQuery name handlerResult = ([0x24, 0x23, 0x30, 0x30], true) ∧
    encode [] = [0x24, 0x23, 0x30, 0x30] := by
  refine ⟨?_, ?_, rfl⟩
  · rw [dispatchCommand, if_neg hb]
    rfl
  · rw [dispatchQuery, if_neg hn]
    rfl

/-- Witness for C4 at concrete inputs: the unknown byte `F` and the unknown
query token `Foo` both produce the empty packet `$#00`. -/
theorem unknown_command_empty_reply_witness :
    dispatchCommand 'F' ([0x4f, 0x4b], false) = ([0x24, 0x23, 0x30, 0x30], true) ∧
    dispatchQuery "Foo" ([0x4f, 0x4b], false) = ([0x24, 0x23, 0x30, 0x30], true) ∧
    encode [] = [0x24, 0x23, 0x30, 0x30] :=
  unknown_command_empty_reply 'F' "Foo" ([0x4f, 0x4b], false)
    (by decide) (by decide)

/-- Conversion from an internal 0-based ContextID to the 1-based thread id
used on the RSP wire. Modelled from the spec: thread ids are offset exactly
once at the marshalling boundary. -/
def wireThreadId (id : Nat) : Nat :=
  id + 1

/-- Conversion from a wire thread id back to the internal ContextID. -/
def internalThreadId (wid : Nat) : Nat :=
  wid - 1

/-- Modelled from the spec (the body of `BaseRemoteGDB::queryC` is not in
the repository): the `qC` reply is `QC` followed by the hex digits of the
current thread id marshalled to the wire. -/
def queryC (currentId : Nat) : String :=
  "QC" ++ String.mk (Nat.toDigits 16 (wireThreadId currentId))

/-- C5: `qC` replies `QC<id+1>` — the internal 0-based ContextID is offset
by one exactly once at the marshalling boundary, and unmarshalling the wire
id recovers the internal id. -/
theorem queryC_thread_id (id : Nat) :
    queryC id = "QC" ++ String.mk (Nat.toDigits 16 (id + 1)) ∧
    wireThreadId id = id + 1 ∧
    internalThreadId (wireThreadId id) = id := by
  refine ⟨rfl, rfl, ?_⟩
  rw [internalThreadId, wireThreadId]
  omega

/-- Modelled from the spec (the body of `BaseRemoteGDB::encodeXferResponse`
is not in the repository): the response to a `qXfer` page request is the
prefix byte `m` (more data remains) or `l` (last chunk) followed by the
RSP-escaped slice `[offset, offset + len)` of the annex content. -/
def encodeXferResponse (content : List Nat) (offset len : Nat) : List Nat :=
  (if offset + len < content.length then [0x6d] else [0x6c]) ++
    escapeAll ((content.drop offset).take len)

/-- C6: `encodeXferResponse` produces a single `m`/`l` prefix byte followed
by the RSP-escaped requested slice, the prefix is `m` exactly when data
remains past the requested window, and when the offset is at or past the
end of the content the response is the bare byte `l`. -/
theorem encodeXfer_paging (content : List Nat) (offset len : Nat) :
    encodeXferResponse content offset len
      = (if offset + len < content.length then [0x6d] else [0x6c]) ++
          escapeAll ((content.drop offset).take len) ∧
    (content.length ≤ offset →
      encodeXferResponse content offset len = [0x6c]) := by
  refine ⟨rfl, ?_⟩
  intro hoff
  rw [encodeXferResponse, List.drop_eq_nil_of_le hoff]
  rw [if_neg (by omega), List.take_nil, escapeAll_nil, List.append_nil]

/-- Witness for C6 at concrete inputs: with a 2-byte annex, offset 2 (one
past the last byte served) yields the bare `l` response. -/
theorem encodeXfer_paging_witness :
    encodeXferResponse [0x3c, 0x3e] 2 4 = [0x6c] :=
  (encodeXfer_paging [0x3c, 0x3e] 2 4).2 (by decide)

/-- `BaseRemoteGDB::build` (embedded from the header source): with the
configured remote-GDB port as input, it returns no stub when the port is 0
and otherwise a new stub bound to that port (represented by the port it is
constructed with). -/
def build (port : Int) : Option Int :=
  if port ≠ 0 then some port else none

/-- C8: `build` returns a null stub exactly when the configured port is 0,
and a non-zero port yields a stub bound to that port. -/
theorem build_iff_port (port : Int) :
    (build port = none ↔ port = 0) ∧
    (port ≠ 0 → build port = some port) := by
  constructor
  · constructor
    · intro h
      by_contra hne
      rw [build, if_pos hne] at h
      exact Option.noConfusion h
    · intro h
      rw [build, if_neg (by simp [h])]
  · intro h
    rw [build, if_pos h]

/-- Witness for C8 at a concrete input: port 7000 gives a stub bound to
port 7000 (and, hypothesis-free via the iff, port 0 gives none). -/
theorem build_iff_port_witness :
    build 7000 = some 7000 ∧ build 0 = none :=
  ⟨(build_iff_port 7000).2 (by decide), (build_iff_port 0).1.mpr rfl⟩

/-- The `_status` values of an `ExecContext`
(`ExecContext::Unallocated | Active | Suspended | Halted`). -/
inductive CtxStatus : Type where
  | Unallocated : CtxStatus
  | Active : CtxStatus
  | Suspended : CtxStatus
  | Halted : CtxStatus
deriving DecidableEq, Repr

/-- A callback into the owning `BaseCPU` emitted by an `ExecContext` status
operation. -/
inductive CpuCall : Type where
  | activateContext (thread_num delay : Nat) : CpuCall
  | suspendContext (thread_num : Nat) : CpuCall
  | deallocateContext (thread_num : Nat) : CpuCall
  | haltContext (thread_num : Nat) : CpuCall
deriving DecidableEq, Repr

/-- `ExecContext::activate(delay)`: early-returns when already `Active`;
otherwise sets `_status` to `Active` and calls
`cpu->activateContext(thread_num, delay)`. Returns the new `_status` and
the list of CPU callbacks made. -/
def activate (thread_num delay : Nat) (s : CtxStatus) :
    CtxStatus × List CpuCall :=
  if s = CtxStatus.Active then (s, [])
  else (CtxStatus.Active, [CpuCall.activateContext thread_num delay])

/-- `ExecContext::suspend()`: early-returns when already `Suspended`; in the
`FULL_SYSTEM` build it also returns without changing `_status` when
`cpu->check_interrupts()` is pending (`checkInterrupts` models that probe,
`false` in the syscall-emulation build); otherwise sets `_status` to
`Suspended` and calls `cpu->suspendContext(thread_num)`. -/
def suspend (checkInterrupts : Bool) (thread_num : Nat) (s : CtxStatus) :
    CtxStatus × List CpuCall :=
  if s = CtxStatus.Suspended then (s, [])
  else if checkInterrupts then (s, [])
  else (CtxStatus.Suspended, [CpuCall.suspendContext thread_num])

/-- `ExecContext::deallocate()`: early-returns when already `Unallocated`;
otherwise sets `_status` to `Unallocated` and calls
`cpu->deallocateContext(thread_num)`. -/
def deallocate (thread_num : Nat) (s : CtxStatus) :
    CtxStatus × List CpuCall :=
  if s = CtxStatus.Unallocated then (s, [])
  else (CtxStatus.Unallocated, [CpuCall.deallocateContext thread_num])

/-- `ExecContext::halt()`: early-returns when already `Halted`; otherwise
sets `_status` to `Halted` and calls `cpu->haltContext(thread_num)`. -/
def halt (thread_num : Nat) (s : CtxStatus) : CtxStatus × List CpuCall :=
  if s = CtxStatus.Halted then (s, [])
  else (CtxStatus.Halted, [CpuCall.haltContext thread_num])

/-- C9: each of the four `ExecContext` status transitions is idempotent —
called in its own target status it changes nothing and makes no CPU
callback, and from any starting status a second call of the same operation
leaves the status reached by the first call and emits no callback, so twice
has the same effect as once. -/
theorem exec_context_status_idempotent (thread_num delay : Nat)
    (checkInterrupts : Bool) (s : CtxStatus) :
    activate thread_num delay CtxStatus.Active = (CtxStatus.Active, []) ∧
    suspend checkInterrupts thread_num CtxStatus.Suspended
      = (CtxStatus.Suspended, []) ∧
    deallocate thread_num CtxStatus.Unallocated
      = (CtxStatus.Unallocated, []) ∧
    halt thread_num CtxStatus.Halted = (CtxStatus.Halted, []) ∧
    activate thread_num delay (activate thread_num delay s).1
      = ((activate thread_num delay s).1, []) ∧
    suspend checkInterrupts thread_num
        (suspend checkInterrupts thread_num s).1
      = ((suspend checkInterrupts thread_num s).1, []) ∧
    deallocate thread_num (deallocate thread_num s).1
      = ((deallocate thread_num s).1, []) ∧
    halt thread_num (halt thread_num s).1 = ((halt thread_num s).1, []) := by
  cases s <;> cases checkInterrupts <;>
    simp [activate, suspend, deallocate, halt]

/-- The fields of an `ExecContext` that `takeOverFrom` reads or writes, in
the syscall-emulation build: `_status`, the register file `regs` (of an
architecture-dependent type `Reg`), `cpu_id`, `func_exe_inst`,
`storeCondFailures`, plus the fixed identity fields `thread_num`, `cpu`,
`mem`, `process` and `asid`. -/
structure ExecContext (Reg : Type) : Type where
  _status : CtxStatus
  regs : Reg
  cpu_id : Int
  func_exe_inst : Nat
  storeCondFailures : Nat
  thread_num : Nat
  cpu : Nat
  mem : Nat
  process : Nat
  asid : Nat
deriving DecidableEq, Repr

/-- `ExecContext::takeOverFrom(oldContext)`: asserts that both contexts
share `mem` and `process`, copies `_status`, `regs`, `cpu_id` and
`func_exe_inst` from the old context into the receiver, resets the
receiver's `storeCondFailures` to 0, and sets the old context's `_status`
to `Unallocated`. Returns the updated (receiver, old) pair. -/
def takeOverFrom {Reg : Type} (self old : ExecContext Reg) :
    ExecContext Reg × ExecContext Reg :=
  ({ self with
      _status := old._status
      regs := old.regs
      cpu_id := old.cpu_id
      func_exe_inst := old.func_exe_inst
      storeCondFailures := 0 },
   { old with _status := CtxStatus.Unallocated })

/-- C10: under the precondition that both contexts share the same memory
and process, `takeOverFrom` copies the old context's `_status`, register
file, `cpu_id` and `func_exe_inst` into the receiver, resets the receiver's
`storeCondFailures` to 0, leaves the old context with status `Unallocated`,
and leaves the receiver's `thread_num`, `cpu` and `mem` unchanged. -/
theorem takeOverFrom_spec {Reg : Type} (self old : ExecContext Reg)
    (hmem : self.mem = old.mem) (hproc : self.process = old.process) :
    (takeOverFrom self old).1._status = old._status ∧
    (takeOverFrom self old).1.regs = old.regs ∧
    (takeOverFrom self old).1.cpu_id = old.cpu_id ∧
    (takeOverFrom self old).1.func_exe_inst = old.func_exe_inst ∧
    (takeOverFrom self old).1.storeCondFailures = 0 ∧
    (takeOverFrom self old).2._status = CtxStatus.Unallocated ∧
    (takeOverFrom self old).2.regs = old.regs ∧
    (takeOverFrom self old).1.thread_num = self.thread_num ∧
    (takeOverFrom self old).1.cpu = self.cpu ∧
    (takeOverFrom self old).1.mem = self.mem := by
  refine ⟨rfl, rfl, rfl, rfl, rfl, rfl, rfl, rfl, rfl, rfl⟩

/-- Witness for C10 at concrete contexts sharing memory 7 and process 2:
an `Active` old context with register value 5 is taken over by a fresh
receiver. -/
theorem takeOverFrom_spec_witness :
    (@takeOverFrom Nat
        ⟨CtxStatus.Unallocated, 0, -1, 0, 3, 1, 10, 7, 2, 0⟩
        ⟨CtxStatus.Active, 5, 4, 99, 8, 0, 11, 7, 2, 0⟩).1._status
      = CtxStatus.Active ∧
    (@takeOverFrom Nat
        ⟨CtxStatus.Unallocated, 0, -1, 0, 3, 1, 10, 7, 2, 0⟩
        ⟨CtxStatus.Active, 5, 4, 99, 8, 0, 11, 7, 2, 0⟩).1.regs = 5 ∧
    (@takeOverFrom Nat
        ⟨CtxStatus.Unallocated, 0, -1, 0, 3, 1, 10, 7, 2, 0⟩
        ⟨CtxStatus.Active, 5, 4, 99, 8, 0, 11, 7, 2, 0⟩).1.cpu_id = 4 ∧
    (@takeOverFrom Nat
        ⟨CtxStatus.Unallocated, 0, -1, 0, 3, 1, 10, 7, 2, 0⟩
        ⟨CtxStatus.Active, 5, 4, 99, 8, 0, 11, 7, 2, 0⟩).1.func_exe_inst = 99 ∧
    (@takeOverFrom Nat
        ⟨CtxStatus.Unallocated, 0, -1, 0, 3, 1, 10, 7, 2, 0⟩
        ⟨CtxStatus.Active, 5, 4, 99, 8, 0, 11, 7, 2, 0⟩).1.storeCondFailures = 0 ∧
    (@takeOverFrom Nat
        ⟨CtxStatus.Unallocated, 0, -1, 0, 3, 1, 10, 7, 2, 0⟩
        ⟨CtxStatus.Active, 5, 4, 99, 8, 0, 11, 7, 2, 0⟩).2._status
      = CtxStatus.Unallocated := by
  have h := @takeOverFrom_spec Nat
    ⟨CtxStatus.Unallocated, 0, -1, 0, 3, 1, 10, 7, 2, 0⟩
    ⟨CtxStatus.Active, 5, 4, 99, 8, 0, 11, 7, 2, 0⟩ rfl rfl
  exact ⟨h.1, h.2.1, h.2.2.1, h.2.2.2.1, h.2.2.2.2.1, h.2.2.2.2.2.1⟩
